import Mathlib

/-!
Verification development for the `trytond-shine` module.

The definitions below are a shallow embedding of the Python sources
(`shine.py`, `table.py`, `data.py`) of the repository.  Python strings are
modelled by `String`, but all string operations used by the embedded code
(`str.lower`, `str.startswith('=')`, lexicographic comparison, splitting)
are re-implemented over `String.data` so that every definition evaluates
inside the kernel.  Machine-level behaviour of the external `formulas`
library (the Excel-formula parser/evaluator) is abstracted by an explicit
oracle structure `FormulasLib`: the embedded code only observes, exactly as
the source does, (a) whether parsing an expression fails, (b) the list of
function names bound to `not_implemented`, (c) the list of input identifiers
of the compiled AST, and (d) the scalar value of calling the compiled AST on
a list of input values.
-/

namespace Shine

/-! ### Python string helpers -/

/-- `str.lower` for a single ASCII character (the only case exercised by the
module's symbol handling). -/
def lowerChar (c : Char) : Char :=
  if 'A' ≤ c ∧ c ≤ 'Z' then Char.ofNat (c.toNat + 32) else c

/-- Python `s.lower()`. -/
def pyLower (s : String) : String := String.mk (s.data.map lowerChar)

/-- Python `s.startswith('=')`, the only `startswith` call in the module. -/
def pyStartsWithEq (s : String) : Bool :=
  match s.data with
  | '=' :: _ => true
  | _ => false

/-- Python `s.split('<')[0]` (used to strip the `<0>` suffix from repeated
missing-method names in `Formula.formula_error`). -/
def pySplitHeadLt (s : String) : String :=
  String.mk (s.data.takeWhile (fun c => c ≠ '<'))

/-- Truthiness of an optional Python string (`None` and `''` are falsy). -/
def strTruthy : Option String → Bool
  | Option.none => false
  | some s => s ≠ ""

/-- A boolean total order on strings (byte-wise lexicographic), used to model
Python's `sorted` on lists of column names. -/
def leChars : List Char → List Char → Bool
  | [], _ => true
  | _ :: _, [] => false
  | a :: as, b :: bs => if a = b then leChars as bs else decide (a < b)

def strLe (s t : String) : Bool := leChars s.data t.data

/-- Insert into a sorted list (helper for `sortStr`). -/
def insertStr (s : String) : List String → List String
  | [] => [s]
  | t :: ts => if strLe s t then s :: t :: ts else t :: insertStr s ts

/-- Python `sorted(...)` on a list of strings (insertion sort). -/
def sortStr : List String → List String
  | [] => []
  | s :: rest => insertStr s (sortStr rest)

/-! ### Type catalog (`shine.py`, `FIELD_TYPES`, lines 26-59)

One constructor per internal selection name (first column of the
`FIELD_TYPES` table). -/

inductive FieldType
  | char
  | multiline
  | integer
  | float
  | numeric
  | boolean
  | many2one
  | date
  | datetime
  | time
  | timestamp
  | timedelta
  | icon
  | image
  | binary
  | reference
deriving DecidableEq, Repr

/-- Internal selection name of a field type (first column of `FIELD_TYPES`). -/
def fieldTypeName : FieldType → String
  | FieldType.char => "char"
  | FieldType.multiline => "multiline"
  | FieldType.integer => "integer"
  | FieldType.float => "float"
  | FieldType.numeric => "numeric"
  | FieldType.boolean => "boolean"
  | FieldType.many2one => "many2one"
  | FieldType.date => "date"
  | FieldType.datetime => "datetime"
  | FieldType.time => "time"
  | FieldType.timestamp => "timestamp"
  | FieldType.timedelta => "timedelta"
  | FieldType.icon => "icon"
  | FieldType.image => "image"
  | FieldType.binary => "binary"
  | FieldType.reference => "reference"

/-- `FIELD_TYPE_TRYTON`: the Tryton field kind (second column of
`FIELD_TYPES`); two logical types are compatible for `Table.copy_from`
exactly when these coincide. -/
def FIELD_TYPE_TRYTON : FieldType → String
  | FieldType.char => "char"
  | FieldType.multiline => "text"
  | FieldType.integer => "integer"
  | FieldType.float => "float"
  | FieldType.numeric => "numeric"
  | FieldType.boolean => "boolean"
  | FieldType.many2one => "many2one"
  | FieldType.date => "date"
  | FieldType.datetime => "datetime"
  | FieldType.time => "time"
  | FieldType.timestamp => "timestamp"
  | FieldType.timedelta => "timedelta"
  | FieldType.icon => "char"
  | FieldType.image => "binary"
  | FieldType.binary => "binary"
  | FieldType.reference => "reference"

/-! ### Python scalar values

The scalar values flowing through the compute pipeline and the record-access
layer.  `verr` models the engine-internal error sentinel
(`formulas.tokens.operand.XlError`, a `str` subclass carrying the error code
such as `#DIV/0!`).  Python `float` and `Decimal` values are both modelled
as rationals. -/

inductive Value
  | vnone
  | vint (n : Int)
  | vrat (q : ℚ)
  | vstr (s : String)
  | vbool (b : Bool)
  | verr (code : String)
deriving DecidableEq, Repr

/-- Errors raised by the embedded code (uncaught Python exceptions). -/
inductive ComputeErr
  | formulaError (msg : String)
  | timeout
  | keyError (k : String)
  | attrError (k : String)
  | coerceError (t : FieldType)
  | typeKeyError
deriving DecidableEq, Repr

/-- Parse a decimal integer literal, modelling Python `int(str)` /
`float(str)` on the integer-literal fragment actually produced by the
module's values. -/
def digitVal (c : Char) : Option Nat :=
  if '0' ≤ c ∧ c ≤ '9' then some (c.toNat - 48) else Option.none

def digitsToNat : List Char → Option Nat
  | [] => Option.none
  | [c] => digitVal c
  | c :: rest =>
    match digitVal c, digitsToNat rest with
    | some d, some r => some (d * 10 ^ rest.length + r)
    | _, _ => Option.none

def pyParseInt (s : String) : Option Int :=
  match s.data with
  | '-' :: rest => (digitsToNat rest).map (fun n => -(n : Int))
  | cs => (digitsToNat cs).map (fun n => (n : Int))

/-- Python `str(v)`.  `XlError` is a `str` subclass, so `str` of the error
sentinel is its own code. -/
def pyStr : Value → String
  | Value.vnone => "None"
  | Value.vint n => toString n
  | Value.vrat q => toString q
  | Value.vstr s => s
  | Value.vbool b => if b then "True" else "False"
  | Value.verr c => c

/-- Python `int(v)` (`None` is a `TypeError`; a non-numeric string — in
particular the `XlError` sentinel — is a `ValueError`). -/
def pyIntOf : Value → Option Int
  | Value.vint n => some n
  | Value.vbool b => some (if b then 1 else 0)
  | Value.vrat q => some (q.num / (q.den : Int))
  | Value.vstr s => pyParseInt s
  | Value.vnone => Option.none
  | Value.verr _ => Option.none

/-- Python `float(v)` / `Decimal(v)` (both modelled as rationals). -/
def pyRatOf : Value → Option ℚ
  | Value.vint n => some (n : ℚ)
  | Value.vbool b => some (if b then 1 else 0)
  | Value.vrat q => some q
  | Value.vstr s => (pyParseInt s).map (fun n => (n : ℚ))
  | Value.vnone => Option.none
  | Value.verr _ => Option.none

/-- Python `bool(v)` (never raises; the `XlError` sentinel is a nonempty
string, hence truthy). -/
def pyBool : Value → Bool
  | Value.vnone => false
  | Value.vint n => n != 0
  | Value.vrat q => decide (q ≠ 0)
  | Value.vstr s => s ≠ ""
  | Value.vbool b => b
  | Value.verr c => c ≠ ""

/-- Applying `FIELD_TYPE_PYTHON[t]` (sixth column of `FIELD_TYPES`) to a
value, i.e. `ftype(value)` in `Sheet.compute_sheet`.  The temporal and
binary types map to class constructors (`date`, `datetime`, `time`,
`relativedelta`, `bytes`) whose single-scalar-argument call raises in
CPython; they are modelled as coercion errors (no claim exercises them). -/
def pythonCoerce : FieldType → Value → Except ComputeErr Value
  | FieldType.char, v => Except.ok (Value.vstr (pyStr v))
  | FieldType.multiline, v => Except.ok (Value.vstr (pyStr v))
  | FieldType.icon, v => Except.ok (Value.vstr (pyStr v))
  | FieldType.reference, v => Except.ok (Value.vstr (pyStr v))
  | FieldType.integer, v =>
    match pyIntOf v with
    | some n => Except.ok (Value.vint n)
    | Option.none => Except.error (ComputeErr.coerceError FieldType.integer)
  | FieldType.many2one, v =>
    match pyIntOf v with
    | some n => Except.ok (Value.vint n)
    | Option.none => Except.error (ComputeErr.coerceError FieldType.many2one)
  | FieldType.float, v =>
    match pyRatOf v with
    | some q => Except.ok (Value.vrat q)
    | Option.none => Except.error (ComputeErr.coerceError FieldType.float)
  | FieldType.numeric, v =>
    match pyRatOf v with
    | some q => Except.ok (Value.vrat q)
    | Option.none => Except.error (ComputeErr.coerceError FieldType.numeric)
  | FieldType.boolean, v => Except.ok (Value.vbool (pyBool v))
  | t, _ => Except.error (ComputeErr.coerceError t)

/-! ### Symbol grammar (`shine.py`, lines 61-88) -/

def VALID_FIRST_SYMBOLS : List Char := "abcdefghijklmnopqrstuvwxyz".data

def VALID_NEXT_SYMBOLS : List Char := "_0123456789".data

def VALID_SYMBOLS : List Char := VALID_FIRST_SYMBOLS ++ VALID_NEXT_SYMBOLS

/-- The `for x in text[1:]` loop of `convert_to_symbol`.  The accumulated
symbol is carried in reversed order (`rsym.head?` is the source's
`symbol[-1]`; appending a character is consing).  Note the source's exact
branching: when `x` is invalid but the last character already is an
underscore, the *invalid character itself* is appended. -/
def cts_loop (rsym : List Char) : List Char → List Char
  | [] => rsym
  | x :: xs =>
    if ¬ (x ∈ VALID_SYMBOLS) ∧ rsym.head? ≠ some '_' then cts_loop ('_' :: rsym) xs
    else cts_loop (x :: rsym) xs

/-- `convert_to_symbol(text)` (`shine.py`, lines 71-88).  `uni` is the
external `unidecode.unidecode` transliteration (identity on ASCII input);
the result is `none` when `uni text` is empty and `text[0]` raises
`IndexError`.  The initial symbol follows the source exactly: an invalid
first character is *kept*, preceded by an underscore (the guard
`'_' in VALID_SYMBOLS` is always true). -/
def convert_to_symbol (uni : String → String) (text : String) : Option String :=
  if text = "" then some "x"
  else
    match (pyLower (uni text)).data with
    | [] => Option.none
    | first :: rest =>
      let init : List Char :=
        if first ∈ VALID_FIRST_SYMBOLS then [first]
        else if '_' ∈ VALID_SYMBOLS then [first, '_']
        else ['_']
      some (String.mk ((cts_loop init rest).reverse))

/-! ### The `formulas` library oracle

The module delegates expression parsing/evaluation to the external
`formulas` package.  The embedded code observes only the data below; the
oracle is a parameter of every definition that uses the library. -/

/-- Result of `parser.ast(expr)[1]` followed by `.compile()`:
`missingMethods` models `builder.dsp.function_nodes` entries bound to
`formulas.functions.not_implemented` (with their `<n>` duplication
suffixes), `inputs` models `ast.inputs.keys()` in order. -/
structure ParseOk where
  missingMethods : List String
  inputs : List String
deriving DecidableEq, Repr

inductive ParseResult
  | formulaError (msg : String)
  | ok (r : ParseOk)
deriving DecidableEq, Repr

/-- The oracle: `parse` abstracts `formulas.Parser().ast(e)[1].compile()`
(with `formulaError` for a raised `formulas.errors.FormulaError`, whose
message is already `%`-formatted); `evalAst` abstracts calling the compiled
AST of `e` on a list of input values — both the `ast(inputs)[0]` form of
`compute_sheet` and the `ast(*inputs)` + `.tolist()` form of
`Data.on_change_with` (numpy unwrapping is the identity on our scalars). -/
structure FormulasLib where
  parse : String → ParseResult
  evalAst : String → List Value → Value

/-! ### Formula (`shine.py`, class `Formula`) -/

/-- A `shine.formula` record (the fields the embedded code reads). -/
structure Formula where
  name : String
  -- the source field is `alias`, a reserved word in Lean
  aliasName : String
  expression : Option String
  type : Option FieldType
  store : Bool
deriving DecidableEq, Repr

/-- The sheets the embedded code needs: the ordered formula list and the
timeout in seconds. -/
structure Sheet where
  formulas : List Formula
  timeout : Nat
deriving Repr

/-- User-facing errors (`raise UserError(gettext(...))`) of the validation
layer; each constructor carries the interpolated names. -/
inductive UserErr
  | invalid_formula (sheet formula : String)
  | no_formulas (sheet : String)
  | consecutive_icons (sheet : String)
  | last_icon (sheet : String)
  | invalid_alias (symbol : Char) (name : String)
  | invalid_store (formula : String)
deriving DecidableEq, Repr

/-- `Formula.check_alias` (`shine.py`, lines 780-784): raises on the first
character of the alias outside `VALID_SYMBOLS`; modelled as `some err`.
Note the source checks only membership in `VALID_SYMBOLS` — there is no
first-character check, and the alias is never modified. -/
def check_alias_loop (name : String) : List Char → Option UserErr
  | [] => Option.none
  | c :: cs =>
    if c ∈ VALID_SYMBOLS then check_alias_loop name cs
    else some (UserErr.invalid_alias c name)

def check_alias (name aliasStr : String) : Option UserErr :=
  check_alias_loop name aliasStr.data

/-- `Formula.check_store` (`shine.py`, lines 786-789). -/
def check_store (f : Formula) : Option UserErr :=
  if f.type = Option.none ∧ f.store then some (UserErr.invalid_store f.name)
  else Option.none

/-- `Formula.previous_formulas` (`shine.py`, lines 841-847): the aliases of
the formulas strictly before `f` in its sheet (a Python `set`; only
membership is observed). -/
def previous_formulas (fs : List Formula) (f : Formula) : List String :=
  (fs.takeWhile (fun g => decide (g ≠ f))).map Formula.aliasName

/-- `Formula.formula_error` (`shine.py`, lines 800-839).  Returns `none`, or
a `(severity, message)` pair.  The missing-method names are deduplicated
through `x.split('<')[0]` exactly as in the source; the not-yet-declared
inputs are the lower-cased AST inputs outside `previous_formulas`. -/
def formula_error (lib : FormulasLib) (fs : List Formula) (f : Formula) :
    Option (Bool × String) :=
  -- the Bool severity: `true` = 'error', `false` = 'warning'
  match f.expression with
  | Option.none => Option.none
  | some e =>
    if e = "" then Option.none
    else if pyStartsWithEq e then
      match lib.parse e with
      | ParseResult.formulaError msg => some (true, msg)
      | ParseResult.ok r =>
        if r.missingMethods ≠ [] then
          let mm := (r.missingMethods.map pySplitHeadLt).dedup
          some (true,
            (if mm.length = 1 then "Unknown method: " else "Unknown methods: ")
              ++ String.intercalate ", " mm)
        else
          let missing :=
            ((r.inputs.map pyLower).dedup).filter
              (fun i => i ∉ previous_formulas fs f)
          if missing = [] then Option.none
          else some (false,
            "Referenced alias " ++ String.intercalate ", " missing
              ++ " not found. Ensure it is declared before this formula.")
    else Option.none

/-- `Formula.on_change_with_expression_icon` (`shine.py`, lines 849-860):
`''` for a missing or literal expression, `'green'` when `formula_error`
reports nothing, `'orange'` for a warning, `'red'` for an error. -/
def expression_icon (lib : FormulasLib) (fs : List Formula) (f : Formula) : String :=
  match f.expression with
  | Option.none => ""
  | some e =>
    if e = "" then ""
    else if pyStartsWithEq e then
      match formula_error lib fs f with
      | Option.none => "green"
      | some (false, _) => "orange"
      | some (true, _) => "red"
    else ""

/-- The loop of `Sheet.check_formulas` (`shine.py`, lines 361-371): walk the
formulas tracking whether any is stored, raising on the first whose icon is
nonempty and not `'green'`; after the loop raise `no_formulas` when no
formula is stored. -/
def check_formulas_loop (lib : FormulasLib) (sname : String) (fs : List Formula)
    (any_formula : Bool) : List Formula → Option UserErr
  | [] => if any_formula then Option.none else some (UserErr.no_formulas sname)
  | f :: rest =>
    let any := any_formula || f.store
    let icon := expression_icon lib fs f
    if icon ≠ "" ∧ icon ≠ "green" then some (UserErr.invalid_formula sname f.name)
    else check_formulas_loop lib sname fs any rest

/-- `Sheet.check_formulas` (`shine.py`, lines 361-371). -/
def check_formulas (lib : FormulasLib) (sname : String) (fs : List Formula) :
    Option UserErr :=
  check_formulas_loop lib sname fs false fs

/-- The loop of `Sheet.check_icons` (`shine.py`, lines 373-384): `was_icon`
is the flag carried across formulas. -/
def check_icons_loop (sname : String) (was_icon : Bool) : List Formula → Option UserErr
  | [] => if was_icon then some (UserErr.last_icon sname) else Option.none
  | f :: rest =>
    if f.type = some FieldType.icon then
      if was_icon then some (UserErr.consecutive_icons sname)
      else check_icons_loop sname true rest
    else check_icons_loop sname false rest

/-- `Sheet.check_icons` (`shine.py`, lines 373-384). -/
def check_icons (sname : String) (fs : List Formula) : Option UserErr :=
  check_icons_loop sname false fs

/-- The validation prefix of `Sheet.activate` (`shine.py`, lines 240-251):
`sheet.check_formulas()` then `sheet.check_icons()`; the first raised error
aborts activation. -/
def activate_checks (lib : FormulasLib) (sname : String) (fs : List Formula) :
    Option UserErr :=
  match check_formulas lib sname fs with
  | some e => some e
  | Option.none => check_icons sname fs

/-! ### The compute pipeline (`Sheet.compute_sheet`, `shine.py`, lines 449-501) -/

/-- A dataset record: attribute name → value (`getattr(record, x)`). -/
abbrev Record := List (String × Value)

/-- `getattr(record, a)`; a missing attribute raises. -/
def getattrRec (r : Record) (a : String) : Except ComputeErr Value :=
  match r.find? (fun p => decide (p.1 = a)) with
  | some p => Except.ok p.2
  | Option.none => Except.error (ComputeErr.attrError a)

/-- `[getattr(record, x) for x in names]` (used both by the fast path of
`compute_sheet` and by `Data.on_change_with`). -/
def getattrAll (r : Record) : List String → Except ComputeErr (List Value)
  | [] => Except.ok []
  | n :: ns =>
    match getattrRec r n with
    | Except.error e => Except.error e
    | Except.ok v =>
      match getattrAll r ns with
      | Except.error e => Except.error e
      | Except.ok vs => Except.ok (v :: vs)

/-- Keys of the per-record `OrderedDict` in `compute_sheet`: direct columns
are inserted under their *alias string*, derived results under the *Formula
record itself* (`values[field] = ftype(value)`).  A Python string never
equals a `Formula` instance, so the two key kinds never collide. -/
inductive VKey
  | alias (s : String)
  | formula (f : Formula)
deriving DecidableEq, Repr

/-- `OrderedDict` lookup. -/
def odGet (vs : List (VKey × Value)) (k : VKey) : Option Value :=
  match vs.find? (fun p => decide (p.1 = k)) with
  | some p => some p.2
  | Option.none => Option.none

/-- `OrderedDict` assignment: replace in place, else append. -/
def odSet (vs : List (VKey × Value)) (k : VKey) (v : Value) : List (VKey × Value) :=
  match vs with
  | [] => [(k, v)]
  | p :: rest => if p.1 = k then (k, v) :: rest else p :: odSet rest k v

/-- The compiled form of one entry of the `formula_fields` list
(`shine.py`, lines 463-465): formulas whose truthy expression starts with
`=` are compiled (`parser.ast(e)[1].compile()`), the others keep their
literal expression (the `else ''` branch; the per-record loop re-tests
`startswith('=')`, which coincides with this constructor split). -/
inductive Compiled
  | ast (expr : String) (r : ParseOk)
  | static (s : String)
deriving DecidableEq, Repr

/-- Build `formula_fields`: the formulas with a truthy expression, in sheet
order, compiling the `=`-expressions; a parse failure raises (the list
comprehension is evaluated eagerly, before any record is processed). -/
def compileFields (lib : FormulasLib) : List Formula → Except ComputeErr (List (Formula × Compiled))
  | [] => Except.ok []
  | f :: fs =>
    match f.expression with
    | Option.none => compileFields lib fs
    | some e =>
      if e = "" then compileFields lib fs
      else if pyStartsWithEq e then
        match lib.parse e with
        | ParseResult.formulaError m => Except.error (ComputeErr.formulaError m)
        | ParseResult.ok r =>
          match compileFields lib fs with
          | Except.error er => Except.error er
          | Except.ok rest => Except.ok ((f, Compiled.ast e r) :: rest)
      else
        match compileFields lib fs with
        | Except.error er => Except.error er
        | Except.ok rest => Except.ok ((f, Compiled.static e) :: rest)

/-- `inputs.append(values[input_.lower()])` over `ast.inputs.keys()`: the
input values are looked up *by alias string*; a key not present in the map
raises `KeyError` (`shine.py`, lines 488-493). -/
def gather_inputs (vs : List (VKey × Value)) : List String → Except ComputeErr (List Value)
  | [] => Except.ok []
  | i :: is =>
    match odGet vs (VKey.alias (pyLower i)) with
    | Option.none => Except.error (ComputeErr.keyError (pyLower i))
    | some v =>
      match gather_inputs vs is with
      | Except.error e => Except.error e
      | Except.ok rest => Except.ok (v :: rest)

/-- The `for field, ast in formula_fields` loop body (`shine.py`, lines
485-498): evaluate (or copy the literal), look up
`FIELD_TYPE_PYTHON[field.type]` (a `KeyError` when the type is unset),
coerce, and store the result under `values[field]` — the Formula record
itself, *not* its alias. -/
def eval_formula_fields (lib : FormulasLib) (vs : List (VKey × Value)) :
    List (Formula × Compiled) → Except ComputeErr (List (VKey × Value))
  | [] => Except.ok vs
  | (f, c) :: rest =>
    let value? : Except ComputeErr Value :=
      match c with
      | Compiled.ast e r =>
        match gather_inputs vs r.inputs with
        | Except.error er => Except.error er
        | Except.ok ins => Except.ok (lib.evalAst e ins)
      | Compiled.static s => Except.ok (Value.vstr s)
    match value? with
    | Except.error er => Except.error er
    | Except.ok value =>
      match f.type with
      | Option.none => Except.error ComputeErr.typeKeyError
      | some t =>
        match pythonCoerce t value with
        | Except.error er => Except.error er
        | Except.ok v2 => eval_formula_fields lib (odSet vs (VKey.formula f) v2) rest

/-- Seed the ordered value map with the direct columns
(`values.update(OrderedDict([(x, getattr(record, x)) for x in direct_fields]))`). -/
def seed_direct (r : Record) : List String → List (VKey × Value) → Except ComputeErr (List (VKey × Value))
  | [], vs => Except.ok vs
  | a :: as, vs =>
    match getattrRec r a with
    | Except.error e => Except.error e
    | Except.ok v => seed_direct r as (odSet vs (VKey.alias a) v)

/-- One record of the slow path: seed the map with the direct columns, run
the derived formulas, and emit `list(values.values())`. -/
def record_row (lib : FormulasLib) (direct : List String)
    (compiled : List (Formula × Compiled)) (r : Record) : Except ComputeErr (List Value) :=
  match seed_direct r direct [] with
  | Except.error e => Except.error e
  | Except.ok vs =>
    match eval_formula_fields lib vs compiled with
    | Except.error e => Except.error e
    | Except.ok vs2 => Except.ok (vs2.map Prod.snd)

/-- Events of a compute run, used to state where the timeout is polled:
one `check` per `checker.check()` call, one `record` per record processed. -/
inductive Ev
  | check
  | record
deriving DecidableEq, BEq, Repr

/-- `for record in records` over one batch: build each row with `rowFn`
(the two paths of `compute_sheet` differ only in the per-record body). -/
def batch_recs (rowFn : Record → Except ComputeErr (List Value)) :
    List Record → Except ComputeErr (List (List Value)) × List Ev
  | [] => (Except.ok [], [])
  | r :: rs =>
    match rowFn r with
    | Except.error e => (Except.error e, [])
    | Except.ok row =>
      match batch_recs rowFn rs with
      | (Except.ok rest, evs) => (Except.ok (row :: rest), Ev.record :: evs)
      | (Except.error e, evs) => (Except.error e, Ev.record :: evs)

/-- `for records in self.dataset.get_data(): checker.check(); ...`
(`shine.py`, lines 472-479): ONE `checker.check()` per batch, before its
records.  `elapsed i` is the value of `(datetime.now() - start).seconds`
observed at the `i`-th check; the check raises `TimeoutException` via
`timeout_exception` when it strictly exceeds the sheet timeout. -/
def compute_batches (rowFn : Record → Except ComputeErr (List Value))
    (timeout : Nat) (elapsed : Nat → Nat) :
    Nat → List (List Record) → Except ComputeErr (List (List Value)) × List Ev
  | _, [] => (Except.ok [], [])
  | i, b :: bs =>
    if timeout < elapsed i then (Except.error ComputeErr.timeout, [Ev.check])
    else
      match batch_recs rowFn b with
      | (Except.error e, evs) => (Except.error e, Ev.check :: evs)
      | (Except.ok rows, evs) =>
        match compute_batches rowFn timeout elapsed (i + 1) bs with
        | (Except.ok rest, evs2) => (Except.ok (rows ++ rest), Ev.check :: (evs ++ evs2))
        | (Except.error e, evs2) => (Except.error e, Ev.check :: (evs ++ evs2))

/-- `Sheet.compute_sheet` (`shine.py`, lines 449-501), with its event trace.
`direct_fields` are the aliases of the formulas with falsy expression;
`formula_fields` is built by `compileFields`; when it is empty the fast path
runs (`[getattr(record, x) for x in direct_fields]`, no `OrderedDict`). -/
def compute_sheet_core (lib : FormulasLib) (sheet : Sheet)
    (batches : List (List Record)) (elapsed : Nat → Nat) :
    Except ComputeErr (List (List Value)) × List Ev :=
  let direct_fields :=
    (sheet.formulas.filter (fun f => !(strTruthy f.expression))).map Formula.aliasName
  match compileFields lib sheet.formulas with
  | Except.error e => (Except.error e, [])
  | Except.ok compiled =>
    if compiled.isEmpty then
      compute_batches (fun r => getattrAll r direct_fields) sheet.timeout elapsed 0 batches
    else
      compute_batches (record_row lib direct_fields compiled) sheet.timeout elapsed 0 batches

/-- The accumulated `insert_values` of a compute run (or the uncaught
exception aborting it). -/
def compute_sheet (lib : FormulasLib) (sheet : Sheet)
    (batches : List (List Record)) (elapsed : Nat → Nat) :
    Except ComputeErr (List (List Value)) :=
  (compute_sheet_core lib sheet batches elapsed).1

/-- The timeout-check / record event trace of a compute run. -/
def compute_sheet_events (lib : FormulasLib) (sheet : Sheet)
    (batches : List (List Record)) (elapsed : Nat → Nat) : List Ev :=
  (compute_sheet_core lib sheet batches elapsed).2

/-- `cursor.execute(*table.delete())`: the physical table rows after the
initial delete. -/
def table_delete (_st : List (List Value)) : List (List Value) := []

/-- `cursor.execute(*table.insert(sql_fields, insert_values))`. -/
def table_insert (st rows : List (List Value)) : List (List Value) := st ++ rows

/-- A full `compute_sheet` run against a table state: delete every row
first, then — only when `insert_values` is nonempty — one bulk insert; an
uncaught exception leaves the table with its rows already deleted. -/
def run_compute_sheet (lib : FormulasLib) (sheet : Sheet)
    (batches : List (List Record)) (elapsed : Nat → Nat)
    (st : List (List Value)) : Except ComputeErr Unit × List (List Value) :=
  let st1 := table_delete st
  match compute_sheet lib sheet batches elapsed with
  | Except.ok rows =>
    (Except.ok (), if rows.isEmpty then st1 else table_insert st1 rows)
  | Except.error e => (Except.error e, st1)

/-! ### Dataset pagination (`DataSet.get_data_model`, `shine.py`, lines 686-707) -/

/-- `Model.search(domain, offset=offset, limit=limit, order=order)` over a
fixed finite store of matching records (in search order). -/
def model_search {α : Type} (all : List α) (offset limit : Nat) : List α :=
  (all.drop offset).take limit

/-- The `while True` loop of `get_data_model`.  Exactly as in the source,
`offset` is initialised to 0 and NEVER modified: every recursive call
re-uses the same offset.  `fuel` bounds the number of iterations we unfold;
`none` means the loop has not terminated within `fuel` iterations.  A page
is yielded only when nonempty (`if records: yield records`), and the loop
breaks once a page shorter than `limit` is returned. -/
def get_data_model_loop {α : Type} (search : Nat → Nat → List α) (limit offset : Nat) :
    Nat → Option (List (List α))
  | 0 => Option.none
  | fuel + 1 =>
    let records := search offset limit
    if records.length < limit then
      some (if records.isEmpty then [] else [records])
    else
      match get_data_model_loop search limit offset fuel with
      | some rest => some (if records.isEmpty then rest else records :: rest)
      | Option.none => Option.none

/-- `DataSet.get_data_model`: `limit = RECORD_CACHE_SIZE`, `offset = 0`. -/
def get_data_model {α : Type} (search : Nat → Nat → List α) (limit fuel : Nat) :
    Option (List (List α)) :=
  get_data_model_loop search limit 0 fuel

/-! ### Schema registry (`Table.copy_from`, `table.py`, lines 61-102) -/

/-- A `shine.table.field` record (`table.py` uses `name`/`type`; `data.py`
additionally reads the `formula` source text of derived columns). -/
structure TableField where
  name : String
  type : FieldType
  formula : Option String
deriving DecidableEq, Repr

/-- Outcome of `Table.copy_from`.  `ok cols` is the single
`INSERT … SELECT` over the sorted matching projection; `noop` is the early
`return` on an empty intersection; `attributeError` models the evaluation of
`Warning.check(key)`: the name `Warning` is never bound to the
`res.user.warning` pool model in `table.py`, so it resolves to Python's
builtin `Warning` class, which has no `check` attribute — an
`AttributeError` is raised before any `UserWarning` can be signalled. -/
inductive CopyOutcome
  | ok (cols : List String)
  | noop
  | attributeError (missing different_types : List String)
deriving DecidableEq, Repr

/-- The `for field in from_table.fields` loop collecting
`different_types` and mutating `existing` (`table.py`, lines 72-79).
`dm` is the `fields` dict built just above it (destination type by name). -/
def different_types_loop (dm : String → Option FieldType) :
    List TableField → List String → List String × List String
  | [], existing => ([], existing)
  | f :: fs, existing =>
    if f.name ∈ existing then
      match dm f.name with
      | some t =>
        if FIELD_TYPE_TRYTON f.type ≠ FIELD_TYPE_TRYTON t then
          let r := different_types_loop dm fs (existing.erase f.name)
          ((f.name ++ " (" ++ fieldTypeName f.type ++ " -> " ++ fieldTypeName t ++ ")") :: r.1,
            r.2)
        else different_types_loop dm fs existing
      | Option.none => different_types_loop dm fs existing
      -- unreachable: every name in `existing` has an entry in the dict
    else different_types_loop dm fs existing

/-- The `fields` dict of `copy_from` (`fields[field.name] = field.type` over
the destination fields whose name is in `existing`); Python dict assignment
lets the last occurrence win, hence the reversed search. -/
def fields_dict (dest : List TableField) (existing : List String) :
    String → Option FieldType :=
  fun n =>
    match ((dest.filter (fun g => decide (g.name ∈ existing))).reverse.find?
        (fun g => decide (g.name = n))) with
    | some g => some g.type
    | Option.none => Option.none

/-- `missing = sorted(list(from_fields - fields))` (`table.py`, line 64):
the source-only column names.  Python set values are modelled throughout by
deduplicated name lists (only membership and sorted output are observed). -/
def copy_missing (dest src : List TableField) : List String :=
  sortStr (((src.map TableField.name).dedup).filter
    (fun n => n ∉ (dest.map TableField.name).dedup))

/-- `existing = fields & from_fields` (`table.py`, line 66), before the
`different_types` loop mutates it. -/
def copy_existing0 (dest src : List TableField) : List String :=
  ((dest.map TableField.name).dedup).filter
    (fun n => n ∈ (src.map TableField.name).dedup)

/-- The `different_types` list and the mutated `existing` set after the
loop of `table.py`, lines 72-79. -/
def copy_dtl (dest src : List TableField) : List String × List String :=
  different_types_loop (fields_dict dest (copy_existing0 dest src)) src
    (copy_existing0 dest src)

/-- `Table.copy_from(from_table)` (`table.py`, lines 61-102).  `dest` is
`self.fields`, `src` is `from_table.fields`. -/
def copy_from (dest src : List TableField) : CopyOutcome :=
  if copy_missing dest src ≠ [] ∨ (copy_dtl dest src).1 ≠ [] then
    CopyOutcome.attributeError (copy_missing dest src) (copy_dtl dest src).1
  else if (copy_dtl dest src).2 = [] then CopyOutcome.noop
  else CopyOutcome.ok (sortStr (copy_dtl dest src).2)

/-! ### Record access layer (`Data.on_change_with`, `data.py`, lines 88-103) -/

/-- The loop body of `Data.on_change_with` for one formula-bearing field:
`ast = field.get_ast()` (a fresh parse of the stored formula source),
`inputs = field.inputs.split()` (the lower-cased AST inputs, see
`TableField.get_inputs`), `getattr(self, x)` per input, `ast(*inputs)`,
numpy unwrapping, and — unlike `compute_sheet` — the `XlError` sentinel is
canonicalized to `None`. -/
def ocw_value (lib : FormulasLib) (rec : Record) (f : TableField) :
    Except ComputeErr Value :=
  match f.formula with
  | Option.none => Except.error (ComputeErr.formulaError "ast of None")
  | some e =>
    match lib.parse e with
    | ParseResult.formulaError m => Except.error (ComputeErr.formulaError m)
    | ParseResult.ok r =>
      match getattrAll rec (r.inputs.map pyLower) with
      | Except.error er => Except.error er
      | Except.ok vals =>
        let value := lib.evalAst e vals
        Except.ok (match value with
          | Value.verr _ => Value.vnone
          | v => v)

/-- `Data.on_change_with(fieldnames)` (`data.py`, lines 88-103): over the
active table's fields, skipping those not in `fieldnames`; the result maps
each computed field name to its (error-canonicalized) value. -/
def on_change_with (lib : FormulasLib) (tfields : List TableField)
    (fieldnames : List String) (rec : Record) :
    Except ComputeErr (List (String × Value)) :=
  match tfields with
  | [] => Except.ok []
  | f :: fs =>
    if f.name ∈ fieldnames then
      match ocw_value lib rec f with
      | Except.error e => Except.error e
      | Except.ok v =>
        match on_change_with lib fs fieldnames rec with
        | Except.error e => Except.error e
        | Except.ok rest => Except.ok ((f.name, v) :: rest)
    else on_change_with lib fs fieldnames rec

/-! ### The canonical timeout-check trace

One `check` per batch, immediately before that batch's records: the shape
`compute_sheet`'s event trace takes on a successful run. -/

def batch_shape : List (List Record) → List Ev
  | [] => []
  | b :: bs => Ev.check :: (b.map (fun _ => Ev.record) ++ batch_shape bs)

/-! ### Concrete instances used by the claim theorems and witnesses -/

/-- A trivial oracle for sheets with no `=`-expressions. -/
def lib0 : FormulasLib :=
  { parse := fun _ => ParseResult.formulaError "unused",
    evalAst := fun _ _ => Value.vnone }

/-- Direct (expression-less) stored integer formula with alias `a`. -/
def fm_a : Formula := ⟨"A", "a", Option.none, some FieldType.integer, true⟩

/-- Derived formula `b = "=a*2"`. -/
def fm_b : Formula := ⟨"B", "b", some "=a*2", some FieldType.integer, true⟩

/-- Derived formula `c = "=b+1"`, reading the *derived* formula `b`. -/
def fm_c : Formula := ⟨"C", "c", some "=b+1", some FieldType.integer, true⟩

/-- Oracle for the two formulas of `sheet1`: `=a*2` reads input `A`,
`=b+1` reads input `B` (the `formulas` library reports inputs upper-cased;
the module lower-cases them at every use). -/
def lib1 : FormulasLib :=
  { parse := fun e =>
      if e = "=a*2" then ParseResult.ok ⟨[], ["A"]⟩
      else if e = "=b+1" then ParseResult.ok ⟨[], ["B"]⟩
      else ParseResult.formulaError "Not a valid formula",
    evalAst := fun e vs =>
      match e, vs with
      | "=a*2", [Value.vint n] => Value.vint (n * 2)
      | "=b+1", [Value.vint n] => Value.vint (n + 1)
      | _, _ => Value.vnone }

def sheet1 : Sheet := ⟨[fm_a, fm_b, fm_c], 100⟩

def rec1 : Record := [("a", Value.vint 3)]

/-- Sheet with a single direct column (fast path). -/
def sheet3 : Sheet := ⟨[fm_a], 100⟩

def rec3 : Record := [("a", Value.vint 1)]

def rec4 : Record := [("a", Value.vint 2)]

/-- Formula whose evaluation produces the division-by-zero sentinel. -/
def fm_div : Formula := ⟨"B", "b", some "=1/a", some FieldType.integer, true⟩

/-- Oracle for `=1/a`: evaluating it yields the `XlError` sentinel
`#DIV/0!` (as the `formulas` engine does on a zero divisor). -/
def lib7 : FormulasLib :=
  { parse := fun e =>
      if e = "=1/a" then ParseResult.ok ⟨[], ["A"]⟩
      else ParseResult.formulaError "Not a valid formula",
    evalAst := fun e _ =>
      if e = "=1/a" then Value.verr "#DIV/0!" else Value.vnone }

def sheet7 : Sheet := ⟨[fm_a, fm_div], 100⟩

def rec7 : Record := [("a", Value.vint 0)]

/-- The `shine.table.field` counterpart of `fm_div` on an active table. -/
def tf7 : TableField := ⟨"b", FieldType.integer, some "=1/a"⟩

/-- Formula referencing the not-yet-declared alias `x`. -/
def fm_x : Formula := ⟨"B", "b", some "=x+1", some FieldType.integer, true⟩

def lib2 : FormulasLib :=
  { parse := fun e =>
      if e = "=x+1" then ParseResult.ok ⟨[], ["X"]⟩
      else ParseResult.formulaError "Not a valid formula",
    evalAst := fun _ _ => Value.vnone }

/-- Icon-typed stored formula (no expression). -/
def fm_icon : Formula := ⟨"I", "i", Option.none, some FieldType.icon, true⟩

/-- Destination/source table fields of the spec's own migration example
(§8: source `(a:int, b:text)`, destination `(a:int, c:text)`). -/
def tfa_int : TableField := ⟨"a", FieldType.integer, Option.none⟩

def tfb_char : TableField := ⟨"b", FieldType.char, Option.none⟩

def tfc_char : TableField := ⟨"c", FieldType.char, Option.none⟩

/-- The icon-placement invariant: every icon-typed formula is immediately
followed by a formula, and that formula is not icon-typed. -/
def icon_follows (fs : List Formula) : Prop :=
  ∀ (i : Nat) (f : Formula), fs[i]? = some f → f.type = some FieldType.icon →
    ∃ g, fs[i + 1]? = some g ∧ g.type ≠ some FieldType.icon

/-! ## Theorems -/

/-! ### Helper lemmas -/

theorem getLast?_cons_of_ne_nil {α : Type} (x : α) (r : List α) (h : r ≠ []) :
    (x :: r).getLast? = r.getLast? := by
  cases r with
  | nil => exact absurd rfl h
  | cons y ys => exact List.getLast?_cons_cons

theorem cts_loop_getLast? :
    ∀ (xs rsym : List Char), rsym ≠ [] → (cts_loop rsym xs).getLast? = rsym.getLast? := by
  intro xs
  induction xs with
  | nil => intro r h; rfl
  | cons x xs ih =>
    intro r h
    simp only [cts_loop]
    by_cases hc : ¬ (x ∈ VALID_SYMBOLS) ∧ r.head? ≠ some '_'
    · rw [if_pos hc, ih ('_' :: r) (by simp), getLast?_cons_of_ne_nil _ _ h]
    · rw [if_neg hc, ih (x :: r) (by simp), getLast?_cons_of_ne_nil _ _ h]

theorem mem_insertStr (a s : String) : ∀ (l : List String), a ∈ insertStr s l ↔ a = s ∨ a ∈ l := by
  intro l
  induction l with
  | nil => simp [insertStr]
  | cons t ts ih =>
    simp only [insertStr]
    by_cases h : strLe s t = true
    · rw [if_pos h]; simp
    · rw [if_neg h]; simp [ih]; tauto

theorem mem_sortStr (a : String) : ∀ (l : List String), a ∈ sortStr l ↔ a ∈ l := by
  intro l
  induction l with
  | nil => simp [sortStr]
  | cons s rest ih => simp [sortStr, mem_insertStr, ih]

theorem sortStr_ne_nil_of_mem {a : String} {l : List String} (h : a ∈ l) : sortStr l ≠ [] :=
  List.ne_nil_of_mem ((mem_sortStr a l).mpr h)

/-! ### Claim C5 -/

/-- Claim C5 — counterexample.  The claim states that the output of
`convert_to_symbol` consists only of characters of `[a-z_0-9]`.  On the
input `"!"` (ASCII, so `unidecode` is the identity) the source keeps the
invalid first character after the underscore: the output is `"_!"`, which
contains `'!'`, a character outside the allowed set. -/
theorem C5_convert_counterexample :
    convert_to_symbol id "!" = some "_!" ∧ '!' ∈ "_!".data ∧ '!' ∉ VALID_SYMBOLS :=
  ⟨rfl, by decide, by decide⟩

/-- Claim C5 (amended): for every transliteration function and every input
on which `convert_to_symbol` returns (i.e. the transliterated text is not
empty), the *first* character of the output is a lowercase letter or an
underscore, and — being a pure function of `(uni, text)` — the result is
deterministic; the output as a whole, however, is NOT restricted to the
allowed symbol set (see the counterexample). -/
theorem C5_first_char (uni : String → String) (text out : String)
    (h : convert_to_symbol uni text = some out) :
    ∃ c, out.data.head? = some c ∧ (c ∈ VALID_FIRST_SYMBOLS ∨ c = '_') := by
  unfold convert_to_symbol at h
  by_cases ht : text = ""
  · rw [if_pos ht] at h
    obtain rfl : "x" = out := Option.some.inj h
    exact ⟨'x', rfl, Or.inl (by decide)⟩
  · rw [if_neg ht] at h
    cases hdata : (pyLower (uni text)).data with
    | nil =>
      rw [hdata] at h
      exact Option.noConfusion h
    | cons first rest =>
      rw [hdata] at h
      have h2 : some (String.mk ((cts_loop
          (if first ∈ VALID_FIRST_SYMBOLS then [first]
            else if '_' ∈ VALID_SYMBOLS then [first, '_'] else ['_']) rest).reverse)) = some out := h
      obtain rfl := Option.some.inj h2
      have hne : (if first ∈ VALID_FIRST_SYMBOLS then [first]
          else if '_' ∈ VALID_SYMBOLS then [first, '_'] else ['_']) ≠ ([] : List Char) := by
        by_cases h1 : first ∈ VALID_FIRST_SYMBOLS
        · rw [if_pos h1]; simp
        · rw [if_neg h1]
          by_cases hu : '_' ∈ VALID_SYMBOLS
          · rw [if_pos hu]; simp
          · rw [if_neg hu]; simp
      have hhead : ((cts_loop (if first ∈ VALID_FIRST_SYMBOLS then [first]
          else if '_' ∈ VALID_SYMBOLS then [first, '_'] else ['_']) rest).reverse).head? =
          (if first ∈ VALID_FIRST_SYMBOLS then [first]
            else if '_' ∈ VALID_SYMBOLS then [first, '_'] else ['_']).getLast? := by
        rw [List.head?_reverse, cts_loop_getLast? rest _ hne]
      by_cases h1 : first ∈ VALID_FIRST_SYMBOLS
      · refine ⟨first, ?_, Or.inl h1⟩
        show ((cts_loop (if first ∈ VALID_FIRST_SYMBOLS then [first]
          else if '_' ∈ VALID_SYMBOLS then [first, '_'] else ['_']) rest).reverse).head? = some first
        rw [hhead, if_pos h1]; rfl
      · refine ⟨'_', ?_, Or.inr rfl⟩
        show ((cts_loop (if first ∈ VALID_FIRST_SYMBOLS then [first]
          else if '_' ∈ VALID_SYMBOLS then [first, '_'] else ['_']) rest).reverse).head? = some '_'
        rw [hhead, if_neg h1]
        by_cases hu : '_' ∈ VALID_SYMBOLS
        · rw [if_pos hu]; rfl
        · rw [if_neg hu]; rfl

/-- Claim C5 — witness: the amended theorem applied at the concrete input
`"!"` (with the identity transliteration). -/
theorem C5_first_char_witness :
    ∃ c, "_!".data.head? = some c ∧ (c ∈ VALID_FIRST_SYMBOLS ∨ c = '_') :=
  C5_first_char id "!" "_!" rfl

/-! ### Claim C6 -/

theorem get_data_model_loop_stuck {α : Type} (all : List α) (limit : Nat)
    (h2 : limit ≤ all.length) :
    ∀ fuel, get_data_model_loop (model_search all) limit 0 fuel = Option.none := by
  intro fuel
  induction fuel with
  | zero => rfl
  | succ n ih =>
    have hlen : (model_search all 0 limit).length = limit := by
      simp only [model_search, List.drop_zero, List.length_take]
      omega
    simp only [get_data_model_loop, hlen, Nat.lt_irrefl, if_false, ih]

/-- Claim C6: the claim states that `get_data_model` enumerates a finite
external model by *advancing* through successive pages and terminates once a
short page is returned.  In the source the `offset` variable is initialised
to 0 and never incremented, so as soon as the model holds at least
`limit` (= batch size) matching records the same full page satisfies
`len(records) == limit` forever and the `while True` loop never breaks:
here, on a model of 2 records with batch size 2, no amount of fuel makes the
loop terminate — `get_data` is an infinite, not a finite, sequence. -/
theorem C6_pagination_never_terminates :
    ∀ fuel, get_data_model (model_search [0, 1]) 2 fuel = Option.none := by
  intro fuel
  exact get_data_model_loop_stuck [0, 1] 2 (by decide) fuel

/-! ### Claim C8 -/

/-- Claim C8: `compute_sheet` deletes every row of the physical table before
inserting the recomputed rows, so the final row set is independent of the
table's prior contents: running the recompute a second time (same dataset
batches, same observed clock) reproduces exactly the state after the first
run — no duplicated and no drifted rows. -/
theorem C8_idempotent (lib : FormulasLib) (sheet : Sheet)
    (batches : List (List Record)) (elapsed : Nat → Nat) (st : List (List Value)) :
    run_compute_sheet lib sheet batches elapsed
        (run_compute_sheet lib sheet batches elapsed st).2 =
      run_compute_sheet lib sheet batches elapsed st := rfl

/-! ### Claim C9 -/

theorem check_alias_loop_iff (name : String) :
    ∀ (cs : List Char), (check_alias_loop name cs).isSome = true ↔ ∃ c ∈ cs, c ∉ VALID_SYMBOLS := by
  intro cs
  induction cs with
  | nil => simp [check_alias_loop]
  | cons c rest ih =>
    by_cases hc : c ∈ VALID_SYMBOLS
    · rw [check_alias_loop, if_pos hc]
      simp only [List.mem_cons, ih]
      constructor
      · rintro ⟨x, hx, hnx⟩; exact ⟨x, Or.inr hx, hnx⟩
      · rintro ⟨x, hx | hx, hnx⟩
        · exact absurd (hx ▸ hc) hnx
        · exact ⟨x, hx, hnx⟩
    · rw [check_alias_loop, if_neg hc]
      simp only [Option.isSome_some, true_iff]
      exact ⟨c, List.mem_cons_self c rest, hc⟩

/-- Claim C9 — counterexample.  The claim states that saving a formula
raises *iff* the alias contains a character outside `[a-z_0-9]` **or its
first character is neither a letter nor an underscore**.  The alias `"0a"`
violates the claimed grammar (its first character `'0'` is neither a letter
nor an underscore), yet `Formula.check_alias` raises nothing: the source
only tests membership of every character in `VALID_SYMBOLS` and has no
first-character check. -/
theorem C9_first_char_not_checked :
    check_alias "n" "0a" = Option.none ∧ '0' ∉ VALID_FIRST_SYMBOLS ∧ '0' ≠ '_' :=
  ⟨rfl, by decide, by decide⟩

/-- Claim C9 (amended): `Formula.check_alias` raises a validation error if
and only if the alias contains some character outside `[a-z_0-9]`; the
first-character restriction of the symbol grammar is not enforced, and the
alias is never modified (the check only reads it). -/
theorem C9_check_alias_iff (name aliasStr : String) :
    (check_alias name aliasStr).isSome = true ↔ ∃ c ∈ aliasStr.data, c ∉ VALID_SYMBOLS :=
  check_alias_loop_iff name aliasStr.data

/-! ### Claim C2 -/

theorem formula_error_some_of_missing (lib : FormulasLib) (fs : List Formula)
    (f : Formula) (e : String) (r : ParseOk) (i : String)
    (he : f.expression = some e) (hs : pyStartsWithEq e = true)
    (hp : lib.parse e = ParseResult.ok r) (hi : i ∈ r.inputs)
    (hm : pyLower i ∉ previous_formulas fs f) :
    ∃ p, formula_error lib fs f = some p := by
  have hne : e ≠ "" := by
    intro hcon
    rw [hcon] at hs
    exact Bool.noConfusion hs
  unfold formula_error
  rw [he]
  simp only [if_neg hne, hs, if_pos, hp]
  by_cases hmm : r.missingMethods ≠ []
  · rw [if_pos hmm]
    exact ⟨_, rfl⟩
  · rw [if_neg hmm]
    have hmem : pyLower i ∈
        ((r.inputs.map pyLower).dedup).filter (fun j => j ∉ previous_formulas fs f) := by
      rw [List.mem_filter]
      exact ⟨List.mem_dedup.mpr (List.mem_map_of_mem pyLower hi), by simpa using hm⟩
    rw [if_neg (List.ne_nil_of_mem hmem)]
    exact ⟨_, rfl⟩

theorem formula_error_none_inputs (lib : FormulasLib) (fs : List Formula)
    (f : Formula) (e : String) (r : ParseOk)
    (hfe : formula_error lib fs f = Option.none)
    (he : f.expression = some e) (hs : pyStartsWithEq e = true)
    (hp : lib.parse e = ParseResult.ok r) :
    ∀ i ∈ r.inputs, pyLower i ∈ previous_formulas fs f := by
  intro i hi
  by_contra hm
  obtain ⟨p, hp2⟩ := formula_error_some_of_missing lib fs f e r i he hs hp hi hm
  rw [hfe] at hp2
  exact Option.noConfusion hp2

theorem expression_icon_bad (lib : FormulasLib) (fs : List Formula)
    (f : Formula) (e : String) (r : ParseOk) (i : String)
    (he : f.expression = some e) (hs : pyStartsWithEq e = true)
    (hp : lib.parse e = ParseResult.ok r) (hi : i ∈ r.inputs)
    (hm : pyLower i ∉ previous_formulas fs f) :
    expression_icon lib fs f ≠ "" ∧ expression_icon lib fs f ≠ "green" := by
  have hne : e ≠ "" := by
    intro hcon
    rw [hcon] at hs
    exact Bool.noConfusion hs
  obtain ⟨p, hfe⟩ := formula_error_some_of_missing lib fs f e r i he hs hp hi hm
  unfold expression_icon
  rw [he]
  simp only [if_neg hne, hs, if_pos, hfe]
  rcases p with ⟨sev, msg⟩
  cases sev
  · exact ⟨(by decide : ("orange" : String) ≠ ""), (by decide : ("orange" : String) ≠ "green")⟩
  · exact ⟨(by decide : ("red" : String) ≠ ""), (by decide : ("red" : String) ≠ "green")⟩

theorem expression_icon_green_none (lib : FormulasLib) (fs : List Formula)
    (f : Formula) (e : String)
    (he : f.expression = some e) (hs : pyStartsWithEq e = true)
    (hicon : expression_icon lib fs f = "" ∨ expression_icon lib fs f = "green") :
    formula_error lib fs f = Option.none := by
  have hne : e ≠ "" := by
    intro hcon
    rw [hcon] at hs
    exact Bool.noConfusion hs
  unfold expression_icon at hicon
  rw [he] at hicon
  simp only [if_neg hne, hs, if_pos] at hicon
  cases hfe : formula_error lib fs f with
  | none => rfl
  | some p =>
    rw [hfe] at hicon
    rcases p with ⟨sev, msg⟩
    cases sev
    · rcases hicon with h | h
      · exact absurd (show ("orange" : String) = "" from h) (by decide)
      · exact absurd (show ("orange" : String) = "green" from h) (by decide)
    · rcases hicon with h | h
      · exact absurd (show ("red" : String) = "" from h) (by decide)
      · exact absurd (show ("red" : String) = "green" from h) (by decide)

theorem check_formulas_loop_raises (lib : FormulasLib) (sname : String) (fs : List Formula) :
    ∀ (l : List Formula) (any : Bool) (f : Formula), f ∈ l →
      expression_icon lib fs f ≠ "" → expression_icon lib fs f ≠ "green" →
      ∃ u, check_formulas_loop lib sname fs any l = some u := by
  intro l
  induction l with
  | nil => intro any f hf; exact absurd hf (List.not_mem_nil f)
  | cons g rest ih =>
    intro any f hf h1 h2
    rw [check_formulas_loop]
    by_cases hg : expression_icon lib fs g ≠ "" ∧ expression_icon lib fs g ≠ "green"
    · rw [if_pos hg]
      exact ⟨_, rfl⟩
    · rw [if_neg hg]
      rcases List.mem_cons.mp hf with rfl | hf2
      · exact absurd ⟨h1, h2⟩ hg
      · exact ih (any || g.store) f hf2 h1 h2

theorem check_formulas_loop_none (lib : FormulasLib) (sname : String) (fs : List Formula) :
    ∀ (l : List Formula) (any : Bool),
      check_formulas_loop lib sname fs any l = Option.none →
      ∀ f ∈ l, expression_icon lib fs f = "" ∨ expression_icon lib fs f = "green" := by
  intro l
  induction l with
  | nil => intro any h f hf; exact absurd hf (List.not_mem_nil f)
  | cons g rest ih =>
    intro any h f hf
    rw [check_formulas_loop] at h
    by_cases hg : expression_icon lib fs g ≠ "" ∧ expression_icon lib fs g ≠ "green"
    · rw [if_pos hg] at h
      exact Option.noConfusion h
    · rw [if_neg hg] at h
      rcases List.mem_cons.mp hf with rfl | hf2
      · by_cases h1 : expression_icon lib fs f = ""
        · exact Or.inl h1
        · by_cases h2 : expression_icon lib fs f = "green"
          · exact Or.inr h2
          · exact absurd ⟨h1, h2⟩ hg
      · exact ih (any || g.store) h f hf2

/-- Claim C2: (1) whenever some formula's compiled `=`-expression reads an
input alias that is not among the aliases of the formulas strictly before it
in the sheet, `Sheet.activate`'s validation (`check_formulas`) raises a
user-facing error, so activation is rejected; (2) conversely, after a
passing validation every formula's compiled input set, lower-cased, is a
subset of the aliases of the strictly-earlier formulas (formulas with no
expression or with a literal expression read nothing). -/
theorem C2_activation_order (lib : FormulasLib) (sname : String) (fs : List Formula) :
    ((∃ f ∈ fs, ∃ e, f.expression = some e ∧ pyStartsWithEq e = true ∧
        ∃ r, lib.parse e = ParseResult.ok r ∧
          ∃ i ∈ r.inputs, pyLower i ∉ previous_formulas fs f) →
      ∃ u, activate_checks lib sname fs = some u)
    ∧ (activate_checks lib sname fs = Option.none →
      ∀ f ∈ fs, ∀ e, f.expression = some e → pyStartsWithEq e = true →
        ∀ r, lib.parse e = ParseResult.ok r →
          ∀ i ∈ r.inputs, pyLower i ∈ previous_formulas fs f) := by
  constructor
  · rintro ⟨f, hf, e, he, hs, r, hp, i, hi, hm⟩
    obtain ⟨h1, h2⟩ := expression_icon_bad lib fs f e r i he hs hp hi hm
    obtain ⟨u, hu⟩ := check_formulas_loop_raises lib sname fs fs false f hf h1 h2
    refine ⟨u, ?_⟩
    unfold activate_checks check_formulas
    rw [hu]
  · intro hact f hf e he hs r hp i hi
    have hcf : check_formulas lib sname fs = Option.none := by
      unfold activate_checks at hact
      cases hcf : check_formulas lib sname fs with
      | none => rfl
      | some u => rw [hcf] at hact; exact Option.noConfusion hact
    have hicon := check_formulas_loop_none lib sname fs fs false hcf f hf
    have hfe := expression_icon_green_none lib fs f e he hs hicon
    exact formula_error_none_inputs lib fs f e r hfe he hs hp i hi

/-- Claim C2 — witness: a sheet whose only formula `b = "=x+1"` reads the
alias `x`, which is declared nowhere before it; activation is rejected. -/
theorem C2_activation_order_witness :
    ∃ u, activate_checks lib2 "s" [fm_x] = some u :=
  (C2_activation_order lib2 "s" [fm_x]).1
    ⟨fm_x, by decide, "=x+1", rfl, rfl, ⟨[], ["X"]⟩, rfl, "X", by decide, by decide⟩

/-! ### Claim C10 -/

theorem icon_follows_cons (f : Formula) (rest : List Formula) :
    icon_follows (f :: rest) ↔
      ((f.type = some FieldType.icon →
          ∃ g, rest[0]? = some g ∧ g.type ≠ some FieldType.icon)
        ∧ icon_follows rest) := by
  constructor
  · intro h
    constructor
    · intro hic
      obtain ⟨g, hg, hgt⟩ := h 0 f (by simp) hic
      exact ⟨g, by simpa using hg, hgt⟩
    · intro i f2 hi hic
      obtain ⟨g, hg, hgt⟩ := h (i + 1) f2 (by simpa using hi) hic
      exact ⟨g, by simpa using hg, hgt⟩
  · rintro ⟨hh, ht⟩ i f2 hi hic
    cases i with
    | zero =>
      obtain rfl : f = f2 := by simpa using hi
      obtain ⟨g, hg, hgt⟩ := hh hic
      exact ⟨g, by simpa using hg, hgt⟩
    | succ j =>
      obtain ⟨g, hg, hgt⟩ := ht j f2 (by simpa using hi) hic
      exact ⟨g, by simpa using hg, hgt⟩

theorem check_icons_loop_none_iff (sname : String) :
    ∀ (l : List Formula) (was : Bool),
      check_icons_loop sname was l = Option.none ↔
        ((was = true → ∃ g, l[0]? = some g ∧ g.type ≠ some FieldType.icon)
          ∧ icon_follows l) := by
  intro l
  induction l with
  | nil =>
    intro was
    cases was
    · simp only [check_icons_loop]
      constructor
      · intro _
        refine ⟨fun h => Bool.noConfusion h, ?_⟩
        intro i f hi
        exact absurd hi (by simp)
      · intro _; rfl
    · simp only [check_icons_loop]
      constructor
      · intro h; exact Option.noConfusion h
      · rintro ⟨hh, _⟩
        obtain ⟨g, hg, _⟩ := hh (by trivial)
        exact absurd hg (by simp)
  | cons f rest ih =>
    intro was
    by_cases hic : f.type = some FieldType.icon
    · cases was
      · rw [check_icons_loop, if_pos hic, if_neg (fun h => Bool.noConfusion h : ¬ (false = true))]
        rw [ih true, icon_follows_cons]
        constructor
        · rintro ⟨hh, ht⟩
          exact ⟨fun h => Bool.noConfusion h, ⟨fun _ => hh rfl, ht⟩⟩
        · rintro ⟨_, hfol, ht⟩
          exact ⟨fun _ => hfol hic, ht⟩
      · rw [check_icons_loop, if_pos hic, if_pos (rfl : (true : Bool) = true)]
        constructor
        · intro h; exact Option.noConfusion h
        · rintro ⟨hh, _⟩
          obtain ⟨g, hg, hgt⟩ := hh (by trivial)
          obtain rfl : f = g := by simpa using hg
          exact absurd hic hgt
    · rw [check_icons_loop, if_neg hic]
      rw [ih false, icon_follows_cons]
      constructor
      · rintro ⟨_, ht⟩
        refine ⟨?_, fun h => absurd h hic, ht⟩
        intro _
        exact ⟨f, by simp, hic⟩
      · rintro ⟨_, _, ht⟩
        exact ⟨fun h => Bool.noConfusion h, ht⟩

/-- Claim C10: `check_icons` passes exactly when every icon-typed formula of
the sheet is immediately followed by a non-icon formula (in particular it
raises when two consecutive formulas are icons or when the last formula is
an icon); since `Sheet.activate` runs `check_icons` after `check_formulas`,
every successfully activated sheet satisfies the invariant. -/
theorem C10_icon_invariant (lib : FormulasLib) (sname : String) (fs : List Formula) :
    (check_icons sname fs = Option.none ↔ icon_follows fs)
    ∧ (activate_checks lib sname fs = Option.none → icon_follows fs) := by
  have hiff : check_icons sname fs = Option.none ↔ icon_follows fs := by
    rw [show check_icons sname fs = check_icons_loop sname false fs from rfl,
      check_icons_loop_none_iff sname fs false]
    constructor
    · rintro ⟨_, h⟩; exact h
    · intro h; exact ⟨fun hcon => Bool.noConfusion hcon, h⟩
  refine ⟨hiff, fun hact => hiff.mp ?_⟩
  unfold activate_checks at hact
  cases hcf : check_formulas lib sname fs with
  | none => rw [hcf] at hact; exact hact
  | some u => rw [hcf] at hact; exact Option.noConfusion hact

/-- Claim C10 — witness: the sheet `[icon formula, integer formula]`
activates (its validation passes), and the theorem instantiated at position
0 yields the non-icon successor of the icon formula. -/
theorem C10_icon_invariant_witness :
    ∃ g, [fm_icon, fm_a][1]? = some g ∧ g.type ≠ some FieldType.icon :=
  (C10_icon_invariant lib0 "s" [fm_icon, fm_a]).2 rfl 0 fm_icon rfl rfl

/-! ### Claim C3 -/

theorem batch_recs_ok_events (rowFn : Record → Except ComputeErr (List Value)) :
    ∀ (b : List Record) (rows : List (List Value)),
      (batch_recs rowFn b).1 = Except.ok rows →
      (batch_recs rowFn b).2 = b.map (fun _ => Ev.record) := by
  intro b
  induction b with
  | nil => intro rows _; rfl
  | cons r rs ih =>
    intro rows h
    rw [batch_recs] at h ⊢
    cases hr : rowFn r with
    | error e =>
      simp only [hr] at h
      exact Except.noConfusion h
    | ok row =>
      rcases hrec : batch_recs rowFn rs with ⟨res, evs⟩
      cases res with
      | error e =>
        simp only [hr, hrec] at h
        exact Except.noConfusion h
      | ok rest =>
        simp only [hr, hrec]
        have h2 := ih rest (by rw [hrec])
        rw [hrec] at h2
        simp only at h2
        simp only [List.map_cons]
        rw [h2]

theorem compute_batches_ok_events (rowFn : Record → Except ComputeErr (List Value))
    (timeout : Nat) (elapsed : Nat → Nat) :
    ∀ (bs : List (List Record)) (i : Nat) (rows : List (List Value)),
      (compute_batches rowFn timeout elapsed i bs).1 = Except.ok rows →
      (compute_batches rowFn timeout elapsed i bs).2 = batch_shape bs := by
  intro bs
  induction bs with
  | nil => intro i rows _; rfl
  | cons b bs ih =>
    intro i rows h
    rw [compute_batches] at h ⊢
    by_cases ht : timeout < elapsed i
    · rw [if_pos ht] at h
      exact Except.noConfusion h
    · rw [if_neg ht] at h ⊢
      rcases hbr : batch_recs rowFn b with ⟨res, evs⟩
      cases res with
      | error e =>
        simp only [hbr] at h
        exact Except.noConfusion h
      | ok rows1 =>
        rcases hcb : compute_batches rowFn timeout elapsed (i + 1) bs with ⟨res2, evs2⟩
        cases res2 with
        | error e =>
          simp only [hbr, hcb] at h
          exact Except.noConfusion h
        | ok rest =>
          simp only [hbr, hcb]
          have h1 := batch_recs_ok_events rowFn b rows1 (by rw [hbr])
          have h2 := ih (i + 1) rest (by rw [hcb])
          rw [hbr] at h1
          rw [hcb] at h2
          simp only at h1 h2
          rw [batch_shape, h1, h2]

theorem compute_sheet_core_ok_events (lib : FormulasLib) (sheet : Sheet)
    (batches : List (List Record)) (elapsed : Nat → Nat) :
    ∀ rows, (compute_sheet_core lib sheet batches elapsed).1 = Except.ok rows →
      (compute_sheet_core lib sheet batches elapsed).2 = batch_shape batches := by
  intro rows h
  rw [compute_sheet_core] at h ⊢
  cases hc : compileFields lib sheet.formulas with
  | error e =>
    simp only [hc] at h
    exact Except.noConfusion h
  | ok compiled =>
    simp only [hc] at h ⊢
    by_cases he : compiled.isEmpty
    · rw [if_pos he] at h ⊢
      exact compute_batches_ok_events _ sheet.timeout elapsed batches 0 rows h
    · rw [if_neg he] at h ⊢
      exact compute_batches_ok_events _ sheet.timeout elapsed batches 0 rows h

/-- Claim C3 — counterexample.  The claim states that the timeout is checked
*for every record of every dataset batch*.  On a single batch of two records
the compute run performs exactly one `checker.check()` — strictly fewer
checks than records: the source polls the timeout once per batch (before the
batch's records), not once per record. -/
theorem C3_claim_counterexample :
    (compute_sheet_events lib0 sheet3 [[rec3, rec4]] (fun _ => 0)).count Ev.check = 1
    ∧ (compute_sheet_events lib0 sheet3 [[rec3, rec4]] (fun _ => 0)).count Ev.record = 2
    ∧ (compute_sheet_events lib0 sheet3 [[rec3, rec4]] (fun _ => 0)).count Ev.check <
        (compute_sheet_events lib0 sheet3 [[rec3, rec4]] (fun _ => 0)).count Ev.record :=
  ⟨rfl, rfl, by decide⟩

/-- Claim C3 (amended): (1) on a successful run, the timeout-check trace of
`compute_sheet` is exactly one check per dataset batch, placed immediately
before that batch's records — not one check per record; (2) whenever at the
first check the observed elapsed seconds (`(datetime.now() - start).seconds`)
strictly exceed the sheet's configured timeout, the whole recompute aborts
with the fatal, caller-visible `TimeoutException`, and the table is left
with its rows deleted and nothing inserted. -/
theorem C3_per_batch_timeout (lib : FormulasLib) (sheet : Sheet)
    (batches : List (List Record)) (elapsed : Nat → Nat) :
    (∀ rows, compute_sheet lib sheet batches elapsed = Except.ok rows →
      compute_sheet_events lib sheet batches elapsed = batch_shape batches)
    ∧ (∀ (st : List (List Value)) (b : List Record) (bs : List (List Record)),
        batches = b :: bs → sheet.timeout < elapsed 0 →
        (∃ c, compileFields lib sheet.formulas = Except.ok c) →
        run_compute_sheet lib sheet batches elapsed st =
          (Except.error ComputeErr.timeout, [])) := by
  constructor
  · intro rows h
    exact compute_sheet_core_ok_events lib sheet batches elapsed rows h
  · rintro st b bs rfl ht ⟨c, hc⟩
    have hcs : compute_sheet lib sheet (b :: bs) elapsed =
        Except.error ComputeErr.timeout := by
      rw [show compute_sheet lib sheet (b :: bs) elapsed =
          (compute_sheet_core lib sheet (b :: bs) elapsed).1 from rfl]
      rw [compute_sheet_core]
      simp only [hc]
      by_cases he : c.isEmpty
      · rw [if_pos he, compute_batches, if_pos ht]
      · rw [if_neg he, compute_batches, if_pos ht]
    rw [run_compute_sheet]
    simp only [hcs]
    rfl

/-- Claim C3 — witness: on the two-record batch the trace is exactly
`check, record, record`; and with the clock already past the timeout the
recompute aborts with `TimeoutException`, leaving the table empty. -/
theorem C3_per_batch_timeout_witness :
    compute_sheet_events lib0 sheet3 [[rec3, rec4]] (fun _ => 0) =
        batch_shape [[rec3, rec4]]
    ∧ run_compute_sheet lib0 sheet3 [[rec3]] (fun _ => 1000) [[Value.vint 9]] =
        (Except.error ComputeErr.timeout, []) :=
  ⟨(C3_per_batch_timeout lib0 sheet3 [[rec3, rec4]] (fun _ => 0)).1
      [[Value.vint 1], [Value.vint 2]] rfl,
    (C3_per_batch_timeout lib0 sheet3 [[rec3]] (fun _ => 1000)).2
      [[Value.vint 9]] [rec3] [] rfl (by decide) ⟨[], rfl⟩⟩

/-! ### Claim C4 -/

theorem dtl_nil_untouched (dm : String → Option FieldType) :
    ∀ (l : List TableField) (ex : List String),
      (different_types_loop dm l ex).1 = [] → (different_types_loop dm l ex).2 = ex := by
  intro l
  induction l with
  | nil => intro ex _; rfl
  | cons f fs ih =>
    intro ex h
    rw [different_types_loop] at h ⊢
    by_cases h1 : f.name ∈ ex
    · rw [if_pos h1] at h ⊢
      cases hdm : dm f.name with
      | none =>
        rw [hdm] at h
        exact ih ex h
      | some t =>
        rw [hdm] at h
        have h' : (if FIELD_TYPE_TRYTON f.type ≠ FIELD_TYPE_TRYTON t then
            ((f.name ++ " (" ++ fieldTypeName f.type ++ " -> " ++ fieldTypeName t ++ ")") ::
                (different_types_loop dm fs (ex.erase f.name)).1,
              (different_types_loop dm fs (ex.erase f.name)).2)
          else different_types_loop dm fs ex).1 = [] := h
        show (if FIELD_TYPE_TRYTON f.type ≠ FIELD_TYPE_TRYTON t then
            ((f.name ++ " (" ++ fieldTypeName f.type ++ " -> " ++ fieldTypeName t ++ ")") ::
                (different_types_loop dm fs (ex.erase f.name)).1,
              (different_types_loop dm fs (ex.erase f.name)).2)
          else different_types_loop dm fs ex).2 = ex
        by_cases h2 : FIELD_TYPE_TRYTON f.type ≠ FIELD_TYPE_TRYTON t
        · rw [if_pos h2] at h'
          exact absurd h' (List.cons_ne_nil _ _)
        · rw [if_neg h2] at h'
          rw [if_neg h2]
          exact ih ex h' 
    · rw [if_neg h1] at h ⊢
      exact ih ex h

/-- Claim C4 — counterexample at the spec's own migration example: the
destination declares `(a : integer, c : char)`, the prior table holds
`(a : integer, b : char)`.  The claim says a recoverable user warning
listing the lost/changed/source-less columns is signalled and a hard error
is never raised; instead the warning path evaluates `Warning.check` on the
Python builtin `Warning` class (the `res.user.warning` model is never
fetched), raising `AttributeError` — a hard, uncaught error — with only
`b` collected (`c`, the destination-only column, is not reported at all). -/
theorem C4_copy_from_counterexample :
    copy_from [tfa_int, tfc_char] [tfa_int, tfb_char] =
      CopyOutcome.attributeError ["b"] [] := rfl

/-- Claim C4 (amended): `copy_from` succeeds with a single `INSERT…SELECT`
exactly over the columns whose names occur in both tables (and then every
copied source column is name-matched in the destination); it is a no-op
only when the source table has no columns at all; and whenever some source
column is absent from the destination it raises `AttributeError` (builtin
`Warning` has no `check`) instead of signalling the recoverable warning. -/
theorem C4_copy_from_amended (dest src : List TableField) :
    (∀ cols, copy_from dest src = CopyOutcome.ok cols →
      ∀ c, c ∈ cols ↔ (c ∈ dest.map TableField.name ∧ c ∈ src.map TableField.name))
    ∧ (copy_from dest src = CopyOutcome.noop → src = [])
    ∧ (∀ f ∈ src, f.name ∉ dest.map TableField.name →
        ∃ m d, copy_from dest src = CopyOutcome.attributeError m d) := by
  refine ⟨?_, ?_, ?_⟩
  · intro cols h c
    rw [copy_from] at h
    by_cases hw : copy_missing dest src ≠ [] ∨ (copy_dtl dest src).1 ≠ []
    · rw [if_pos hw] at h
      exact CopyOutcome.noConfusion h
    · rw [if_neg hw] at h
      push_neg at hw
      obtain ⟨hm, hd⟩ := hw
      by_cases hex : (copy_dtl dest src).2 = []
      · rw [if_pos hex] at h
        exact CopyOutcome.noConfusion h
      · rw [if_neg hex] at h
        have hcols : cols = sortStr (copy_dtl dest src).2 := by
          cases h
          rfl
        have hex1 : (copy_dtl dest src).2 = copy_existing0 dest src :=
          dtl_nil_untouched _ src _ hd
        rw [hcols, mem_sortStr, hex1, copy_existing0]
        simp [List.mem_filter, List.mem_dedup]
  · intro h
    rw [copy_from] at h
    by_cases hw : copy_missing dest src ≠ [] ∨ (copy_dtl dest src).1 ≠ []
    · rw [if_pos hw] at h
      exact CopyOutcome.noConfusion h
    · rw [if_neg hw] at h
      push_neg at hw
      obtain ⟨hm, hd⟩ := hw
      by_cases hex : (copy_dtl dest src).2 = []
      · have hex1 : copy_existing0 dest src = [] :=
          (dtl_nil_untouched _ src _ hd) ▸ hex
        cases hsrc : src with
        | nil => rfl
        | cons f fs =>
          exfalso
          have hf : f.name ∈ (src.map TableField.name).dedup := by
            rw [List.mem_dedup, hsrc]
            exact List.mem_map_of_mem _ (List.mem_cons_self f fs)
          by_cases hin : f.name ∈ (dest.map TableField.name).dedup
          · have hmem : f.name ∈ copy_existing0 dest src := by
              rw [copy_existing0, List.mem_filter]
              exact ⟨hin, by simpa using hf⟩
            rw [hex1] at hmem
            exact List.not_mem_nil _ hmem
          · have hmem : f.name ∈ copy_missing dest src := by
              rw [copy_missing, mem_sortStr, List.mem_filter]
              exact ⟨hf, by simpa using hin⟩
            exact (List.ne_nil_of_mem hmem) hm
      · rw [if_neg hex] at h
        exact CopyOutcome.noConfusion h
  · intro f hf hnot
    have hmem : f.name ∈ copy_missing dest src := by
      rw [copy_missing, mem_sortStr, List.mem_filter]
      refine ⟨List.mem_dedup.mpr (List.mem_map_of_mem _ hf), ?_⟩
      simpa [List.mem_dedup] using hnot
    refine ⟨copy_missing dest src, (copy_dtl dest src).1, ?_⟩
    rw [copy_from, if_pos (Or.inl (List.ne_nil_of_mem hmem))]

/-- Claim C4 — witness: the amended theorem applied at a source with a
column (`b`) absent from the destination yields the `AttributeError`
outcome. -/
theorem C4_copy_from_amended_witness :
    ∃ m d, copy_from [tfa_int, tfc_char] [tfa_int, tfb_char] =
      CopyOutcome.attributeError m d :=
  (C4_copy_from_amended [tfa_int, tfc_char] [tfa_int, tfb_char]).2.2
    tfb_char (by decide) (by decide)

/-! ### Claim C7 -/

/-- Claim C7 — counterexample.  The claim states that *every* evaluation
path stores null when the engine yields an error sentinel.  In the compute
pipeline the sentinel is NOT canonicalized: `compute_sheet` feeds
`ast(inputs)[0]` straight into `ftype(value)`; for an integer-typed formula
`int(XlError('#DIV/0!'))` raises, so the recompute aborts with an exception
instead of storing null — here a sheet `(a direct, b = "=1/a" integer)` on
the record `a = 0` errors out rather than producing a row with a null
`b`. -/
theorem C7_compute_counterexample :
    compute_sheet lib7 sheet7 [[rec7]] (fun _ => 0) =
      Except.error (ComputeErr.coerceError FieldType.integer) := rfl

/-- Claim C7 (amended): only the on-write re-derivation path canonicalizes
the engine's error sentinel — whenever the compiled formula of a
formula-bearing column evaluates to an `XlError` value, `Data.on_change_with`
stores `None` for that column instead of propagating the error (the compute
pipeline, by contrast, coerces the sentinel and can raise; see the
counterexample). -/
theorem C7_on_change_with_null (lib : FormulasLib) (rec : Record) (f : TableField)
    (e : String) (r : ParseOk) (vals : List Value) (c : String)
    (he : f.formula = some e) (hp : lib.parse e = ParseResult.ok r)
    (hv : getattrAll rec (r.inputs.map pyLower) = Except.ok vals)
    (hev : lib.evalAst e vals = Value.verr c) :
    on_change_with lib [f] [f.name] rec = Except.ok [(f.name, Value.vnone)] := by
  have hocw : ocw_value lib rec f = Except.ok Value.vnone := by
    rw [ocw_value, he]
    simp only [hp, hv, hev]
  rw [on_change_with, if_pos (by simp : f.name ∈ [f.name])]
  simp only [hocw]
  rfl

/-- Claim C7 — witness: the division-by-zero sentinel of `b = "=1/a"` on the
record `a = 0` is stored as null by the on-write path. -/
theorem C7_on_change_with_null_witness :
    on_change_with lib7 [tf7] ["b"] rec7 = Except.ok [("b", Value.vnone)] :=
  C7_on_change_with_null lib7 rec7 tf7 "=1/a" ⟨[], ["A"]⟩ [Value.vint 0] "#DIV/0!"
    rfl rfl rfl rfl

/-! ### Claim C1 -/

/-- Claim C1: the claim states that a derived formula's evaluation can read
the value of any formula positioned strictly before it, *including earlier
derived formulas*.  The sheet `(a direct integer, b = "=a*2", c = "=b+1")`
passes the module's own activation validation (`check_formulas` accepts
references to any strictly-earlier alias, derived or not, and `check_icons`
passes), yet computing it on the single record `a = 3` raises
`KeyError('b')`: the per-record map stores `b`'s result under the Formula
*record* as dict key (`values[field] = ftype(value)`), while input lookup is
by lower-cased *alias string* (`values[input_.lower()]`), so an earlier
derived formula's value is unreachable.  The code contradicts both the spec
and its own validation layer. -/
theorem C1_derived_reads_keyerror :
    activate_checks lib1 "s" [fm_a, fm_b, fm_c] = Option.none
    ∧ compute_sheet lib1 sheet1 [[rec1]] (fun _ => 0) =
        Except.error (ComputeErr.keyError "b") :=
  ⟨rfl, rfl⟩
